import Mathlib

/-!
Verification of the HotShot DA sub-protocol core against its specification.

Part 1 models the DA task event handler (`DaTaskState::handle` in
`crates/task-impls/src/da.rs`).  Part 2 models the election / certificate
machinery (`types/src/traits/election.rs`): `is_valid_cert`,
`accumulate_internal`, the `Committable` instance of `VoteData`, and
`is_valid_view_sync_cert`.

External collaborators the handler merely calls through (hashing, signing,
leader lookup, storage appends, the consensus-state update methods, the
vote-collector machinery) are modelled as abstract function parameters
bundled in an environment structure, so every theorem quantifies over all
of their behaviours; the control flow of the handler itself is translated
line by line from the source.
-/

namespace DaTask

/-- Byte strings (for example encoded transactions or a SHA-256 digest). -/
abbrev Bytes := List Nat

/-- The payload of a DA proposal (`DaProposal` in `types/src/data.rs`). -/
structure DaProposal where
  encoded_transactions : Bytes
  metadata : Nat
  view_number : Nat
deriving DecidableEq, Repr

/-- A signed proposal message (`Proposal` wrapper: data plus the leader
signature over the hash of the encoded transactions). -/
structure Proposal where
  data : DaProposal
  signature : Nat
deriving DecidableEq, Repr

/-- A DA vote as far as the DA task inspects it (its view number; the
payload commitment it carries is opaque to the dispatch logic). -/
structure DaVote where
  view_number : Nat
  payload_commit : Nat
deriving DecidableEq, Repr

/-- A packed bundle of transactions delivered by `BlockRecv`. -/
structure PackedBundle where
  encoded_transactions : Bytes
  metadata : Nat
  view_number : Nat
deriving DecidableEq, Repr

/-- The bus events consumed and produced by the DA task.  `other` stands
for every event kind the handler ignores in its default match arm. -/
inductive HotShotEvent where
  | daProposalRecv (p : Proposal) (sender : Nat)
  | daProposalValidated (p : Proposal) (sender : Nat)
  | daVoteRecv (v : DaVote)
  | daVoteSend (v : DaVote)
  | daProposalSend (p : Proposal) (key : Nat)
  | daCertificateSend (cert : Nat)
  | viewChange (view : Nat) (epoch : Nat)
  | blockRecv (b : PackedBundle)
  | other
deriving DecidableEq, Repr

/-- The shared consensus state as far as the DA task touches it: the
consensus object's own current view, the saved-payloads map and the
view-to-payload-commitment (DA view) map. -/
structure ConsensusState where
  cur_view : Nat
  saved_payloads : List (Nat × Bytes)
  da_views : List (Nat × Nat)
deriving DecidableEq, Repr

/-- Local state of the DA task (`DaTaskState`).  The vote-collectors map
is opaque to the dispatch logic and modelled as an abstract value. -/
structure DaTaskState where
  cur_view : Nat
  cur_epoch : Nat
  public_key : Nat
  private_key : Nat
  consensus : ConsensusState
  vote_collectors : Nat
deriving DecidableEq, Repr

/-- The application-layer event published on the output stream
(`EventType::DaProposal`). -/
structure AppEvent where
  view_number : Nat
  proposal : Proposal
  sender : Nat
deriving DecidableEq, Repr

/-- The error reasons with which `handle` can return early (each `ensure!`
or `?` site in the source gets one constructor). -/
inductive DaError where
  | staleProposal
  | duplicatePayload
  | leaderLookup
  | wrongLeader
  | invalidProposalSignature
  | staleValidated
  | notCommitteeMember
  | storageFailed
  | voteCreation
  | voteHandling
  | notLeader
  | olderViewChange
  | signing
deriving DecidableEq, Repr

/-- The `Result<()>` returned by `handle`. -/
inductive HandleRes where
  | ok
  | error (e : DaError)
deriving DecidableEq, Repr

/-- Output of one `handle` call: the new task state, the events broadcast
on the internal event stream, the events published to the application
stream, and the returned result. -/
structure HandleOut where
  state : DaTaskState
  events : List HotShotEvent
  appEvents : List AppEvent
  res : HandleRes
deriving DecidableEq, Repr

/-- The external collaborators the DA task calls into, as abstract
functions: SHA-256 hashing, signing (fallible), signature validation,
leader lookup (fallible), DA-stake membership, committee size, the VID
commitment, the storage append (true means success), vote creation
(fallible), the two consensus-state update methods (fallible, returning
the updated consensus state on success) and the vote-collector feed
(fallible, returning the new collectors value and the events it
broadcasts). -/
structure Env where
  hash : Bytes → Bytes
  sign : Nat → Bytes → Option Nat
  validate : Nat → Nat → Bytes → Bool
  leader : Nat → Nat → Option Nat
  has_da_stake : Nat → Nat → Bool
  total_nodes : Nat → Nat
  vid_commitment : Bytes → Nat → Nat
  append_da : Proposal → Nat → Bool
  create_signed_vote : Nat → Nat → Nat → Nat → Option DaVote
  update_da_view : ConsensusState → Nat → Nat → Option ConsensusState
  update_saved_payloads : ConsensusState → Nat → Bytes → Option ConsensusState
  handle_vote : Nat → DaVote → Nat → Option (Nat × List HotShotEvent)

/-- The `DaProposalRecv` arm of `handle`: staleness check
(`cur_view <= view + 1`), duplicate-payload check, leader lookup, leader
equality check, signature check over the SHA-256 hash of the encoded
transactions, then broadcast of `DaProposalValidated`. -/
def handleDaProposalRecv (env : Env) (st : DaTaskState) (p : Proposal)
    (sender : Nat) : HandleOut :=
  let view := p.data.view_number
  if st.cur_view ≤ view + 1 then
    if (st.consensus.saved_payloads.lookup view).isSome then
      ⟨st, [], [], .error .duplicatePayload⟩
    else
      let encoded_transactions_hash := env.hash p.data.encoded_transactions
      match env.leader view st.cur_epoch with
      | none => ⟨st, [], [], .error .leaderLookup⟩
      | some view_leader_key =>
        if view_leader_key = sender then
          if env.validate view_leader_key p.signature encoded_transactions_hash then
            ⟨st, [.daProposalValidated p sender], [], .ok⟩
          else ⟨st, [], [], .error .invalidProposalSignature⟩
        else ⟨st, [], [], .error .wrongLeader⟩
  else ⟨st, [], [], .error .staleProposal⟩

/-- The VID payload commitment computed in the `DaProposalValidated` arm. -/
def daPayloadCommitment (env : Env) (st : DaTaskState) (p : Proposal) : Nat :=
  env.vid_commitment p.data.encoded_transactions (env.total_nodes st.cur_epoch)

/-- The `DaProposalValidated` arm of `handle`: staleness re-check against
the consensus object's current view, application-stream broadcast,
DA-stake check, VID commitment, storage append (errors abort with `?`),
vote creation and `DaVoteSend`, then the two consensus-state updates whose
failures are logged and swallowed.  The detached optimistic-VID task
spawned when the primary network is down is asynchronous and has no
synchronous effect on the handler, so it does not appear here. -/
def handleDaProposalValidated (env : Env) (st : DaTaskState) (p : Proposal)
    (sender : Nat) : HandleOut :=
  if st.consensus.cur_view ≤ p.data.view_number + 1 then
    let app := [AppEvent.mk st.cur_view p sender]
    if env.has_da_stake st.public_key st.cur_epoch then
      let payload_commitment := daPayloadCommitment env st p
      if env.append_da p payload_commitment then
        let view_number := p.data.view_number
        match env.create_signed_vote payload_commitment view_number
            st.public_key st.private_key with
        | none => ⟨st, [], app, .error .voteCreation⟩
        | some vote =>
          let c1 := (env.update_da_view st.consensus view_number
              payload_commitment).getD st.consensus
          let c2 := (env.update_saved_payloads c1 view_number
              p.data.encoded_transactions).getD c1
          ⟨{ st with consensus := c2 }, [.daVoteSend vote], app, .ok⟩
      else ⟨st, [], app, .error .storageFailed⟩
    else ⟨st, [], app, .error .notCommitteeMember⟩
  else ⟨st, [], [], .error .staleValidated⟩

/-- The `DaVoteRecv` arm of `handle`: leader lookup, leadership check,
then the vote is fed to the vote-collectors machinery. -/
def handleDaVoteRecv (env : Env) (st : DaTaskState) (v : DaVote) : HandleOut :=
  match env.leader v.view_number st.cur_epoch with
  | none => ⟨st, [], [], .error .leaderLookup⟩
  | some l =>
    if l = st.public_key then
      match env.handle_vote st.vote_collectors v st.cur_epoch with
      | none => ⟨st, [], [], .error .voteHandling⟩
      | some (c, evs) => ⟨{ st with vote_collectors := c }, evs, [], .ok⟩
    else ⟨st, [], [], .error .notLeader⟩

/-- The `ViewChange` arm of `handle`: the epoch is advanced first (even
when the view change is then dropped as older), then the view is advanced
only if it is strictly newer. -/
def handleViewChange (st : DaTaskState) (view epoch : Nat) : HandleOut :=
  let st1 := if st.cur_epoch < epoch then { st with cur_epoch := epoch } else st
  if st1.cur_view < view then ⟨{ st1 with cur_view := view }, [], [], .ok⟩
  else ⟨st1, [], [], .error .olderViewChange⟩

/-- The `BlockRecv` arm of `handle`: hash the encoded transactions with
SHA-256, sign the hash with this node's private key, build the DA proposal
and broadcast `DaProposalSend` with this node's public key. -/
def handleBlockRecv (env : Env) (st : DaTaskState) (b : PackedBundle) : HandleOut :=
  let encoded_transactions_hash := env.hash b.encoded_transactions
  match env.sign st.private_key encoded_transactions_hash with
  | none => ⟨st, [], [], .error .signing⟩
  | some s =>
    let data : DaProposal :=
      ⟨b.encoded_transactions, b.metadata, b.view_number⟩
    ⟨st, [.daProposalSend ⟨data, s⟩ st.public_key], [], .ok⟩

/-- The main event handler `DaTaskState::handle`. -/
def handle (env : Env) (st : DaTaskState) (ev : HotShotEvent) : HandleOut :=
  match ev with
  | .daProposalRecv p sender => handleDaProposalRecv env st p sender
  | .daProposalValidated p sender => handleDaProposalValidated env st p sender
  | .daVoteRecv v => handleDaVoteRecv env st v
  | .viewChange view epoch => handleViewChange st view epoch
  | .blockRecv b => handleBlockRecv env st b
  | _ => ⟨st, [], [], .ok⟩

/-- Characterization of the `DaProposalRecv` arm shared by several
theorems: `DaProposalValidated` is broadcast exactly when all four
validation conditions hold. -/
theorem handleDaProposalRecv_validated_iff (env : Env) (st : DaTaskState)
    (p : Proposal) (sender : Nat) :
    HotShotEvent.daProposalValidated p sender ∈
        (handleDaProposalRecv env st p sender).events ↔
      (st.cur_view ≤ p.data.view_number + 1 ∧
       st.consensus.saved_payloads.lookup p.data.view_number = none ∧
       env.leader p.data.view_number st.cur_epoch = some sender ∧
       env.validate sender p.signature
         (env.hash p.data.encoded_transactions) = true) := by
  unfold handleDaProposalRecv
  by_cases h1 : st.cur_view ≤ p.data.view_number + 1
  · cases hl : st.consensus.saved_payloads.lookup p.data.view_number with
    | some b => simp [h1, hl]
    | none =>
      cases h3 : env.leader p.data.view_number st.cur_epoch with
      | none => simp [h1, hl, h3]
      | some vlk =>
        by_cases h4 : vlk = sender
        · subst h4
          by_cases h5 : env.validate vlk p.signature
              (env.hash p.data.encoded_transactions)
          · simp [h1, hl, h3, h5]
          · simp [h1, hl, h3, h5]
        · simp [h1, hl, h3, h4]
  · simp [h1]

/-- Claim C1: on a `DaProposalRecv(proposal, sender)` event the DA task
broadcasts `DaProposalValidated(proposal, sender)` if and only if the
current view is at most `proposal.view + 1`, no payload is saved for
`proposal.view`, the sender is the leader of `(proposal.view, cur_epoch)`,
and the leader key validates `proposal.signature` over the SHA-256 hash of
the encoded transactions; when any condition fails nothing is
broadcast. -/
theorem da_proposal_recv_validated_iff (env : Env) (st : DaTaskState)
    (p : Proposal) (sender : Nat) :
    HotShotEvent.daProposalValidated p sender ∈
        (handle env st (.daProposalRecv p sender)).events ↔
      (st.cur_view ≤ p.data.view_number + 1 ∧
       st.consensus.saved_payloads.lookup p.data.view_number = none ∧
       env.leader p.data.view_number st.cur_epoch = some sender ∧
       env.validate sender p.signature
         (env.hash p.data.encoded_transactions) = true) :=
  handleDaProposalRecv_validated_iff env st p sender

/-- A concrete environment in which every proposal check beyond staleness
succeeds: the hash is the identity, every view's leader is key 0, every
signature validates, and all fallible collaborators succeed. -/
def envHappy : Env where
  hash := fun bs => bs
  sign := fun _ _ => some 0
  validate := fun _ _ _ => true
  leader := fun _ _ => some 0
  has_da_stake := fun _ _ => true
  total_nodes := fun _ => 4
  vid_commitment := fun _ _ => 0
  append_da := fun _ _ => true
  create_signed_vote := fun pc v _ _ => some ⟨v, pc⟩
  update_da_view := fun c v pc => some { c with da_views := (v, pc) :: c.da_views }
  update_saved_payloads := fun c v tx =>
    some { c with saved_payloads := (v, tx) :: c.saved_payloads }
  handle_vote := fun c _ _ => some (c + 1, [])

/-- A node state at current view 10 with empty consensus maps. -/
def stView10 : DaTaskState :=
  ⟨10, 0, 0, 0, ⟨10, [], []⟩, 0⟩

/-- A proposal for view 8 with empty payload. -/
def proposalView8 : Proposal := ⟨⟨[], 0, 8⟩, 0⟩

/-- A proposal for view 9 with empty payload. -/
def proposalView9 : Proposal := ⟨⟨[], 0, 9⟩, 0⟩

/-- Claim C3: a `DaProposalRecv` event is rejected as stale exactly when
`proposal.view + 1 < cur_view`; concretely at `cur_view = 10` a proposal
for view 8 is dropped with the staleness error and broadcasts nothing,
while a proposal for view 9 passes the staleness check and (all other
checks succeeding) is validated. -/
theorem da_proposal_recv_stale_iff :
    (∀ (env : Env) (st : DaTaskState) (p : Proposal) (sender : Nat),
      (handle env st (.daProposalRecv p sender)).res =
          .error .staleProposal ↔
        p.data.view_number + 1 < st.cur_view) ∧
    (handle envHappy stView10 (.daProposalRecv proposalView8 0)).res =
        .error .staleProposal ∧
    (handle envHappy stView10 (.daProposalRecv proposalView8 0)).events = [] ∧
    (handle envHappy stView10 (.daProposalRecv proposalView9 0)).events =
        [.daProposalValidated proposalView9 0] := by
  refine ⟨?_, by decide, by decide, by decide⟩
  intro env st p sender
  show (handleDaProposalRecv env st p sender).res = _ ↔ _
  unfold handleDaProposalRecv
  by_cases h1 : st.cur_view ≤ p.data.view_number + 1
  · cases hl : st.consensus.saved_payloads.lookup p.data.view_number with
    | some b => simp [h1, hl]
    | none =>
      cases h3 : env.leader p.data.view_number st.cur_epoch with
      | none => simp [h1, hl, h3]
      | some vlk =>
        by_cases h4 : vlk = sender
        · subst h4
          by_cases h5 : env.validate vlk p.signature
              (env.hash p.data.encoded_transactions)
          · simp [h1, hl, h3, h5]
          · simp [h1, hl, h3, h5]
        · simp [h1, hl, h3, h4]
  · simp [h1]
    omega

/-- Claim C4: in the `DaProposalValidated` arm (once the staleness and
DA-stake checks pass), a storage `append_da` failure makes `handle` return
the storage error with no `DaVoteSend` broadcast and the task state (hence
both consensus-state maps) unchanged; conversely, when the append and the
vote creation succeed, `handle` returns success regardless of the results
of `update_da_view` and `update_saved_payloads`. -/
theorem da_storage_failure_semantics (env : Env) (st : DaTaskState)
    (p : Proposal) (sender : Nat)
    (hstale : st.consensus.cur_view ≤ p.data.view_number + 1)
    (hstake : env.has_da_stake st.public_key st.cur_epoch = true) :
    (env.append_da p (daPayloadCommitment env st p) = false →
      (handle env st (.daProposalValidated p sender)).res =
          .error .storageFailed ∧
      (handle env st (.daProposalValidated p sender)).events = [] ∧
      (handle env st (.daProposalValidated p sender)).state = st) ∧
    (∀ v : DaVote, env.append_da p (daPayloadCommitment env st p) = true →
      env.create_signed_vote (daPayloadCommitment env st p)
          p.data.view_number st.public_key st.private_key = some v →
      (handle env st (.daProposalValidated p sender)).res = .ok ∧
      (handle env st (.daProposalValidated p sender)).events =
          [.daVoteSend v]) := by
  constructor
  · intro h3
    show (handleDaProposalValidated env st p sender).res = _ ∧
      (handleDaProposalValidated env st p sender).events = _ ∧
      (handleDaProposalValidated env st p sender).state = _
    unfold handleDaProposalValidated
    simp [hstale, hstake, h3]
  · intro v h3 h4
    show (handleDaProposalValidated env st p sender).res = _ ∧
      (handleDaProposalValidated env st p sender).events = _
    unfold handleDaProposalValidated
    simp [hstale, hstake, h3, h4]

/-- An environment identical to `envHappy` except that the storage append
always fails. -/
def envAppendFail : Env :=
  { envHappy with append_da := fun _ _ => false }

/-- An environment identical to `envHappy` except that both
consensus-state update methods always fail. -/
def envUpdateFail : Env :=
  { envHappy with
    update_da_view := fun _ _ _ => none
    update_saved_payloads := fun _ _ _ => none }

/-- Witness for claim C4 at concrete inputs: with a failing storage
append the handler aborts without voting or touching state, and with a
successful append the handler succeeds even though both consensus-state
update methods fail. -/
theorem da_storage_failure_semantics_witness :
    ((handle envAppendFail stView10 (.daProposalValidated proposalView9 0)).res =
        .error .storageFailed ∧
      (handle envAppendFail stView10 (.daProposalValidated proposalView9 0)).events = [] ∧
      (handle envAppendFail stView10 (.daProposalValidated proposalView9 0)).state =
        stView10) ∧
    ((handle envUpdateFail stView10 (.daProposalValidated proposalView9 0)).res = .ok ∧
      (handle envUpdateFail stView10 (.daProposalValidated proposalView9 0)).events =
        [.daVoteSend ⟨9, 0⟩]) :=
  ⟨(da_storage_failure_semantics envAppendFail stView10 proposalView9 0
      (by decide) (by decide)).1 (by decide),
   (da_storage_failure_semantics envUpdateFail stView10 proposalView9 0
      (by decide) (by decide)).2 ⟨9, 0⟩ (by decide) (by decide)⟩

/-- Claim C7: on `DaVoteRecv(vote)`, if this node is not the leader of
`(vote.view, cur_epoch)` the event is dropped with no state change (in
particular the vote collectors are untouched); the vote is fed to the
vote-collector machinery only when this node is the leader, in which case
the collectors take the value the machinery returns. -/
theorem da_vote_recv_leader_gate (env : Env) (st : DaTaskState) (v : DaVote) :
    (env.leader v.view_number st.cur_epoch ≠ some st.public_key →
      (handle env st (.daVoteRecv v)).state = st ∧
      (handle env st (.daVoteRecv v)).events = [] ∧
      (handle env st (.daVoteRecv v)).res ≠ .ok) ∧
    (env.leader v.view_number st.cur_epoch = some st.public_key →
      ∀ (c : Nat) (evs : List HotShotEvent),
        env.handle_vote st.vote_collectors v st.cur_epoch = some (c, evs) →
        (handle env st (.daVoteRecv v)).state =
            { st with vote_collectors := c } ∧
        (handle env st (.daVoteRecv v)).events = evs ∧
        (handle env st (.daVoteRecv v)).res = .ok) := by
  constructor
  · intro hne
    show (handleDaVoteRecv env st v).state = _ ∧
      (handleDaVoteRecv env st v).events = _ ∧
      (handleDaVoteRecv env st v).res ≠ _
    unfold handleDaVoteRecv
    cases h1 : env.leader v.view_number st.cur_epoch with
    | none => simp
    | some l =>
      have hl : ¬ l = st.public_key := by
        intro h
        exact hne (by rw [h1, h])
      simp [hl]
  · intro heq c evs h3
    show (handleDaVoteRecv env st v).state = _ ∧
      (handleDaVoteRecv env st v).events = _ ∧
      (handleDaVoteRecv env st v).res = _
    unfold handleDaVoteRecv
    simp [heq, h3]

/-- An environment in which this node (key 0) leads view 1 but not
view 0. -/
def envLeaderOfView1 : Env :=
  { envHappy with leader := fun view _ => if view = 1 then some 0 else some 1 }

/-- Witness for claim C7 at concrete inputs: a vote for view 0 (led by
key 1) is dropped without touching the collectors, while a vote for
view 1 (led by this node, key 0) is fed to the collector machinery. -/
theorem da_vote_recv_leader_gate_witness :
    ((handle envLeaderOfView1 stView10 (.daVoteRecv ⟨0, 0⟩)).state = stView10 ∧
      (handle envLeaderOfView1 stView10 (.daVoteRecv ⟨0, 0⟩)).events = [] ∧
      (handle envLeaderOfView1 stView10 (.daVoteRecv ⟨0, 0⟩)).res ≠ .ok) ∧
    ((handle envLeaderOfView1 stView10 (.daVoteRecv ⟨1, 0⟩)).state =
        { stView10 with vote_collectors := 1 } ∧
      (handle envLeaderOfView1 stView10 (.daVoteRecv ⟨1, 0⟩)).events = [] ∧
      (handle envLeaderOfView1 stView10 (.daVoteRecv ⟨1, 0⟩)).res = .ok) :=
  ⟨(da_vote_recv_leader_gate envLeaderOfView1 stView10 ⟨0, 0⟩).1 (by decide),
   (da_vote_recv_leader_gate envLeaderOfView1 stView10 ⟨1, 0⟩).2 (by decide)
     1 [] (by decide)⟩

/-- Claim C8: any proposal broadcast by the `BlockRecv` arm in
`DaProposalSend` carries this node's key as sender and this node's
signature over the SHA-256 hash of the bundle's encoded transactions, so
(assuming the signature scheme accepts this node's signatures under its
own key) the proposal passes the `DaProposalRecv` signature check, and on
any receiving state whose staleness, duplicate-payload and leader checks
pass for this node it is validated: the sign step of `BlockRecv` and the
verification step of `DaProposalRecv` round-trip. -/
theorem block_recv_round_trip (env : Env) (st : DaTaskState)
    (b : PackedBundle) (p : Proposal) (k : Nat)
    (hpair : ∀ (m : Bytes) (s : Nat), env.sign st.private_key m = some s →
      env.validate st.public_key s m = true)
    (hmem : HotShotEvent.daProposalSend p k ∈
      (handle env st (.blockRecv b)).events) :
    k = st.public_key ∧
    env.validate st.public_key p.signature
        (env.hash p.data.encoded_transactions) = true ∧
    (∀ st2 : DaTaskState,
      st2.cur_view ≤ p.data.view_number + 1 →
      st2.consensus.saved_payloads.lookup p.data.view_number = none →
      env.leader p.data.view_number st2.cur_epoch = some st.public_key →
      HotShotEvent.daProposalValidated p st.public_key ∈
        (handle env st2 (.daProposalRecv p st.public_key)).events) := by
  have hmem2 : HotShotEvent.daProposalSend p k ∈
      (handleBlockRecv env st b).events := hmem
  simp only [handleBlockRecv] at hmem2
  cases hs : env.sign st.private_key (env.hash b.encoded_transactions) with
  | none =>
    rw [hs] at hmem2
    simp at hmem2
  | some s =>
    rw [hs] at hmem2
    simp at hmem2
    obtain ⟨hp, hk⟩ := hmem2
    subst hk
    have hval : env.validate st.public_key p.signature
        (env.hash p.data.encoded_transactions) = true := by
      rw [hp]
      exact hpair _ s hs
    refine ⟨rfl, hval, ?_⟩
    intro st2 h1 h2 h3
    exact (handleDaProposalRecv_validated_iff env st2 p st.public_key).mpr
      ⟨h1, h2, h3, hval⟩

/-- Witness for claim C8 at concrete inputs: the proposal emitted for an
empty bundle at view 9 is accepted back by the `DaProposalRecv` arm at a
node on view 10. -/
theorem block_recv_round_trip_witness :
    HotShotEvent.daProposalValidated proposalView9 0 ∈
      (handle envHappy stView10 (.daProposalRecv proposalView9 0)).events :=
  (block_recv_round_trip envHappy stView10 ⟨[], 0, 9⟩ proposalView9 0
      (by intro m s h; rfl) (by decide)).2.2 stView10 (by decide) (by decide)
    (by decide)

/-- The `DaProposalRecv` arm never changes the task state. -/
theorem handleDaProposalRecv_state_eq (env : Env) (st : DaTaskState)
    (p : Proposal) (sender : Nat) :
    (handleDaProposalRecv env st p sender).state = st := by
  unfold handleDaProposalRecv
  by_cases h1 : st.cur_view ≤ p.data.view_number + 1
  · cases hl : st.consensus.saved_payloads.lookup p.data.view_number with
    | some b => simp [h1, hl]
    | none =>
      cases h3 : env.leader p.data.view_number st.cur_epoch with
      | none => simp [h1, hl, h3]
      | some vlk =>
        by_cases h4 : vlk = sender
        · subst h4
          by_cases h5 : env.validate vlk p.signature
              (env.hash p.data.encoded_transactions) = true
          · simp [h1, hl, h3, h5]
          · simp [h1, hl, h3, h5]
        · simp [h1, hl, h3, h4]
  · simp [h1]

/-- The `DaProposalValidated` arm never changes the current view or
epoch. -/
theorem handleDaProposalValidated_views (env : Env) (st : DaTaskState)
    (p : Proposal) (sender : Nat) :
    (handleDaProposalValidated env st p sender).state.cur_view = st.cur_view ∧
    (handleDaProposalValidated env st p sender).state.cur_epoch = st.cur_epoch := by
  unfold handleDaProposalValidated
  by_cases h1 : st.consensus.cur_view ≤ p.data.view_number + 1
  · by_cases h2 : env.has_da_stake st.public_key st.cur_epoch = true
    · by_cases h3 : env.append_da p (daPayloadCommitment env st p) = true
      · cases h4 : env.create_signed_vote (daPayloadCommitment env st p)
            p.data.view_number st.public_key st.private_key with
        | none => simp [h1, h2, h3, h4]
        | some v => simp [h1, h2, h3, h4]
      · simp [h1, h2, h3]
    · simp [h1, h2]
  · simp [h1]

/-- The `DaVoteRecv` arm never changes the current view or epoch. -/
theorem handleDaVoteRecv_views (env : Env) (st : DaTaskState) (v : DaVote) :
    (handleDaVoteRecv env st v).state.cur_view = st.cur_view ∧
    (handleDaVoteRecv env st v).state.cur_epoch = st.cur_epoch := by
  unfold handleDaVoteRecv
  cases h1 : env.leader v.view_number st.cur_epoch with
  | none => simp
  | some l =>
    by_cases h2 : l = st.public_key
    · cases h3 : env.handle_vote st.vote_collectors v st.cur_epoch with
      | none => simp [h2, h3]
      | some pr => simp [h2, h3]
    · simp [h2]

/-- The `BlockRecv` arm never changes the task state. -/
theorem handleBlockRecv_state_eq (env : Env) (st : DaTaskState)
    (b : PackedBundle) :
    (handleBlockRecv env st b).state = st := by
  unfold handleBlockRecv
  cases h : env.sign st.private_key (env.hash b.encoded_transactions) with
  | none => simp [h]
  | some s => simp [h]

/-- Exact effect of the `ViewChange` arm on the view and epoch: the epoch
becomes the maximum (even for an old view change) and the view advances
only when strictly newer. -/
theorem handleViewChange_spec (st : DaTaskState) (view epoch : Nat) :
    (handleViewChange st view epoch).state.cur_epoch = max st.cur_epoch epoch ∧
    (handleViewChange st view epoch).state.cur_view =
      if st.cur_view < view then view else st.cur_view := by
  unfold handleViewChange
  by_cases he : st.cur_epoch < epoch <;> by_cases hv : st.cur_view < view <;>
    refine ⟨?_, ?_⟩ <;> simp [he, hv] <;> omega

/-- Claim C6: across every event, the handler never decreases `cur_epoch`
or `cur_view`; and on `ViewChange(view, epoch)` the new epoch is
`max cur_epoch epoch` (the epoch update happens even when the view change
is dropped as older) while the view becomes `view` exactly when
`view > cur_view` and is unchanged otherwise. -/
theorem view_epoch_monotone :
    (∀ (env : Env) (st : DaTaskState) (ev : HotShotEvent),
      st.cur_epoch ≤ (handle env st ev).state.cur_epoch ∧
      st.cur_view ≤ (handle env st ev).state.cur_view) ∧
    (∀ (env : Env) (st : DaTaskState) (view epoch : Nat),
      (handle env st (.viewChange view epoch)).state.cur_epoch =
          max st.cur_epoch epoch ∧
      (handle env st (.viewChange view epoch)).state.cur_view =
          if st.cur_view < view then view else st.cur_view) := by
  constructor
  · intro env st ev
    cases ev with
    | daProposalRecv p sender =>
      have h := handleDaProposalRecv_state_eq env st p sender
      show st.cur_epoch ≤ (handleDaProposalRecv env st p sender).state.cur_epoch ∧
        st.cur_view ≤ (handleDaProposalRecv env st p sender).state.cur_view
      rw [h]
      exact ⟨le_refl _, le_refl _⟩
    | daProposalValidated p sender =>
      have h := handleDaProposalValidated_views env st p sender
      show st.cur_epoch ≤
          (handleDaProposalValidated env st p sender).state.cur_epoch ∧
        st.cur_view ≤ (handleDaProposalValidated env st p sender).state.cur_view
      rw [h.1, h.2]
      exact ⟨le_refl _, le_refl _⟩
    | daVoteRecv v =>
      have h := handleDaVoteRecv_views env st v
      show st.cur_epoch ≤ (handleDaVoteRecv env st v).state.cur_epoch ∧
        st.cur_view ≤ (handleDaVoteRecv env st v).state.cur_view
      rw [h.1, h.2]
      exact ⟨le_refl _, le_refl _⟩
    | viewChange view epoch =>
      have h := handleViewChange_spec st view epoch
      show st.cur_epoch ≤ (handleViewChange st view epoch).state.cur_epoch ∧
        st.cur_view ≤ (handleViewChange st view epoch).state.cur_view
      rw [h.1, h.2]
      constructor
      · omega
      · split <;> omega
    | blockRecv b =>
      have h := handleBlockRecv_state_eq env st b
      show st.cur_epoch ≤ (handleBlockRecv env st b).state.cur_epoch ∧
        st.cur_view ≤ (handleBlockRecv env st b).state.cur_view
      rw [h]
      exact ⟨le_refl _, le_refl _⟩
    | daVoteSend v => exact ⟨le_refl _, le_refl _⟩
    | daProposalSend p k => exact ⟨le_refl _, le_refl _⟩
    | daCertificateSend c => exact ⟨le_refl _, le_refl _⟩
    | other => exact ⟨le_refl _, le_refl _⟩
  · intro env st view epoch
    exact handleViewChange_spec st view epoch

end DaTask

namespace Election

/-!
Model of `types/src/traits/election.rs`.  Commitments are modelled as the
labelled transcript the `RawCommitmentBuilder` feeds to the hash (tag,
field name, inner commitment): the builder is a domain-separated injective
encoding, so distinct transcripts stand for distinct commitments.
-/

/-- A commitment value: either an opaque underlying commitment, the
commitment of a `ViewSyncData { relay, round }` value, or the labelled
transcript `H(tag, field_name, field_value)` built by
`RawCommitmentBuilder`. -/
inductive Com where
  | raw (n : Nat)
  | viewSyncData (relay : Nat) (round : Nat)
  | tagged (label : String) (fname : String) (inner : Com)
deriving DecidableEq, Repr

/-- The `VoteData` enum: domain-separation wrapper around the commitment
being voted on. -/
inductive VoteData where
  | DA (c : Com)
  | Yes (c : Com)
  | No (c : Com)
  | Timeout (c : Com)
  | ViewSyncPreCommit (c : Com)
  | ViewSyncCommit (c : Com)
  | ViewSyncFinalize (c : Com)
deriving DecidableEq, Repr

/-- The `Committable` instance of `VoteData`: each variant commits under
its own domain label and field name. -/
def VoteData.commit : VoteData → Com
  | .DA c => .tagged ("DA Block Commit") ("block_commitment") c
  | .Yes c => .tagged ("Yes Vote Commit") ("leaf_commitment") c
  | .No c => .tagged ("No Vote Commit") ("leaf_commitment") c
  | .Timeout c => .tagged ("Timeout View Number Commit") ("view_number_commitment") c
  | .ViewSyncPreCommit c => .tagged ("ViewSyncPreCommit") ("commitment") c
  | .ViewSyncCommit c => .tagged ("ViewSyncCommit") ("commitment") c
  | .ViewSyncFinalize c => .tagged ("ViewSyncFinalize") ("commitment") c

/-- One row of the committee QC stake table (`StakeTableEntry`): a BLS
verification key and its stake. -/
structure StakeEntry where
  stake_key : Nat
  stake_amount : Nat
deriving DecidableEq, Repr

/-- A `BitVectorQC` aggregate signature: the signer bitset (aligned to
the stake table) and the aggregated signature value. -/
structure BitVecSig where
  signers : List Bool
  sig : Nat
deriving DecidableEq, Repr

/-- The `AssembledSignature` enum carried by certificates. -/
inductive AssembledSignature where
  | DA (s : BitVecSig)
  | Yes (s : BitVecSig)
  | No (s : BitVecSig)
  | Genesis
  | ViewSyncPreCommit (s : BitVecSig)
  | ViewSyncCommit (s : BitVecSig)
  | ViewSyncFinalize (s : BitVecSig)
deriving DecidableEq, Repr

/-- The possible outcomes of `Membership::validate_vote_token`: an
election error, or a checked token that is valid, invalid or still
unchecked. -/
inductive TokenOutcome where
  | err
  | valid
  | inval
  | unchecked
deriving DecidableEq, Repr

/-- A vote as packaged for `accumulate_internal` (`VoteMetaData`). -/
structure VoteMetaData where
  encoded_key : Nat
  encoded_signature : Nat
  entry : StakeEntry
  ver_key : Nat
  commitment : Com
  data : VoteData
  vote_token : Nat
  view_number : Nat
  relay : Option Nat
deriving DecidableEq, Repr

/-- The exchange's collaborators and membership data: the committee QC
stake table and the two thresholds (from `Membership`), the aggregate
signature verifier (abstract core of the external `BitVectorQC` crate),
leader lookup, key decoding (`SignatureKey::from_bytes`), single
signature validation, vote-token validation, and the
`VoteAccumulator::append` step (abstract, since `vote.rs` is not part of
the sources; the accumulator value itself is opaque). -/
structure ExchEnv where
  committee_qc_stake_table : List StakeEntry
  success_threshold : Nat
  failure_threshold : Nat
  verify_agg : List StakeEntry → Com → Nat → Bool
  get_leader : Nat → Nat
  from_bytes : Nat → Option Nat
  validate_key : Nat → Nat → Com → Bool
  validate_vote_token : Nat → Nat → TokenOutcome
  acc_append : Nat → VoteMetaData → Nat → Sum Nat AssembledSignature

/-- The stake-table entries selected by a signer bitset. -/
def selectEntries (table : List StakeEntry) (bits : List Bool) : List StakeEntry :=
  (List.zip table bits).filterMap (fun x => if x.2 then some x.1 else none)

/-- Total stake of a list of entries. -/
def sumStakes (l : List StakeEntry) : Nat :=
  (l.map (fun e => e.stake_amount)).sum

/-- Modelled from the spec: `BitVectorQC::check` of the external
`hotshot_primitives` crate (not under the sources).  Per spec section 4.4,
select the stake-table entries named by the signer bitset, require their
total stake to reach the threshold, and verify the aggregate signature
under the selected keys (the pairing check itself stays an abstract
oracle). -/
def bvCheck (env : ExchEnv) (stake_entries : List StakeEntry) (threshold : Nat)
    (msg : Com) (s : BitVecSig) : Bool :=
  decide (threshold ≤ sumStakes (selectEntries stake_entries s.signers)) &&
    env.verify_agg (selectEntries stake_entries s.signers) msg s.sig

/-- `Time::genesis()`: view number zero. -/
def genesisView : Nat := 0

/-- A certificate as `is_valid_cert` inspects it: view number, the
`is_genesis` marker of the `SignedCertificate` implementation, the leaf
commitment and the assembled signatures. -/
structure Cert where
  view_number : Nat
  genesis_flag : Bool
  leaf_commitment : Com
  signatures : AssembledSignature
deriving DecidableEq, Repr

/-- `ConsensusExchange::is_valid_cert`.  The `none` result models the
`panic!` the source raises on view-sync signature variants. -/
def isValidCert (env : ExchEnv) (qc : Cert) (commit : Com) : Option Bool :=
  if qc.genesis_flag = true ∧ qc.view_number = genesisView then some true
  else if qc.leaf_commitment ≠ commit then some false
  else
    match qc.signatures with
    | .DA s => some (bvCheck env env.committee_qc_stake_table
        env.success_threshold ((VoteData.DA qc.leaf_commitment).commit) s)
    | .Yes s => some (bvCheck env env.committee_qc_stake_table
        env.success_threshold ((VoteData.Yes qc.leaf_commitment).commit) s)
    | .No s => some (bvCheck env env.committee_qc_stake_table
        env.success_threshold ((VoteData.No qc.leaf_commitment).commit) s)
    | .Genesis => some true
    | .ViewSyncPreCommit _ => none
    | .ViewSyncCommit _ => none
    | .ViewSyncFinalize _ => none

/-- The claim's genesis acceptance condition, following the claim's
words: the certificate is a genesis certificate and its view number is
the genesis view. -/
def certClaimsGenesis (qc : Cert) : Bool :=
  qc.genesis_flag && decide (qc.view_number = genesisView)

/-- The claim's verification condition, following the claim's words: the
aggregate signature verifies over the domain-separated commitment of the
vote data against the committee stake table with threshold
`success_threshold` (no variant of `AssembledSignature` other than the
three voting kinds carries a verifiable aggregate). -/
def certAggVerifies (env : ExchEnv) (qc : Cert) : Bool :=
  match qc.signatures with
  | .DA s => bvCheck env env.committee_qc_stake_table env.success_threshold
      ((VoteData.DA qc.leaf_commitment).commit) s
  | .Yes s => bvCheck env env.committee_qc_stake_table env.success_threshold
      ((VoteData.Yes qc.leaf_commitment).commit) s
  | .No s => bvCheck env env.committee_qc_stake_table env.success_threshold
      ((VoteData.No qc.leaf_commitment).commit) s
  | _ => false

/-- Claim C2 as stated, following the claim's words: `is_valid_cert`
accepts exactly the genesis certificates at the genesis view and the
certificates whose leaf commitment matches and whose aggregate signature
verifies at the success threshold. -/
def specValidCert (env : ExchEnv) (qc : Cert) (commit : Com) : Bool :=
  certClaimsGenesis qc ||
    (decide (qc.leaf_commitment = commit) && certAggVerifies env qc)

/-- A minimal concrete exchange environment whose aggregate verifier
rejects everything. -/
def envRejectAll : ExchEnv where
  committee_qc_stake_table := []
  success_threshold := 1
  failure_threshold := 1
  verify_agg := fun _ _ _ => false
  get_leader := fun _ => 0
  from_bytes := fun k => some k
  validate_key := fun _ _ _ => false
  validate_vote_token := fun _ _ => .err
  acc_append := fun a _ _ => .inl a

/-- A non-genesis certificate (view 1, genesis marker false) that
nevertheless carries `AssembledSignature::Genesis` signatures. -/
def qcGenesisMarker : Cert := ⟨1, false, Com.raw 0, .Genesis⟩

/-- Counterexample for claim C2: a non-genesis certificate carrying the
`Genesis` signature marker and a matching leaf commitment is accepted by
`is_valid_cert` although neither arm of the claimed disjunction holds
(no signature is verified at all). -/
theorem is_valid_cert_claim_counterexample :
    isValidCert envRejectAll qcGenesisMarker (Com.raw 0) = some true ∧
    specValidCert envRejectAll qcGenesisMarker (Com.raw 0) = false := by
  decide

/-- Claim C2 as amended: `is_valid_cert` returns true exactly when the
certificate claims genesis at the genesis view, or its leaf commitment
matches the expected commitment and its aggregate signature verifies at
the success threshold, or (the case the original claim misses) its leaf
commitment matches and it merely carries the `Genesis` signature marker,
which is accepted without any verification; in particular a non-genesis
certificate with a voting-kind aggregate whose selected stake is below
`success_threshold` is rejected. -/
theorem is_valid_cert_characterization :
    (∀ (env : ExchEnv) (qc : Cert) (commit : Com),
      isValidCert env qc commit = some true ↔
        (certClaimsGenesis qc = true ∨
         (qc.leaf_commitment = commit ∧ certAggVerifies env qc = true) ∨
         (qc.leaf_commitment = commit ∧ qc.signatures = .Genesis))) ∧
    (∀ (env : ExchEnv) (qc : Cert) (commit : Com) (s : BitVecSig),
      qc.signatures = .DA s →
      certClaimsGenesis qc = false →
      sumStakes (selectEntries env.committee_qc_stake_table s.signers) <
          env.success_threshold →
      isValidCert env qc commit ≠ some true) := by
  constructor
  · intro env qc commit
    by_cases hg : qc.genesis_flag = true ∧ qc.view_number = genesisView
    · have hgb : certClaimsGenesis qc = true := by
        simp [certClaimsGenesis, hg.1, hg.2]
      simp [isValidCert, hg, hgb]
    · have hgb : certClaimsGenesis qc = false := by
        simp only [certClaimsGenesis, Bool.and_eq_false_iff]
        by_cases h1 : qc.genesis_flag = true
        · right
          simp only [decide_eq_false_iff_not]
          intro h2
          exact hg ⟨h1, h2⟩
        · left
          simp [Bool.not_eq_true] at h1
          exact h1
      by_cases hleaf : qc.leaf_commitment = commit
      · cases hsig : qc.signatures with
        | DA s => simp [isValidCert, hg, hleaf, hgb, certAggVerifies, hsig]
        | Yes s => simp [isValidCert, hg, hleaf, hgb, certAggVerifies, hsig]
        | No s => simp [isValidCert, hg, hleaf, hgb, certAggVerifies, hsig]
        | Genesis => simp [isValidCert, hg, hleaf, hgb, certAggVerifies, hsig]
        | ViewSyncPreCommit s =>
          simp [isValidCert, hg, hleaf, hgb, certAggVerifies, hsig]
        | ViewSyncCommit s =>
          simp [isValidCert, hg, hleaf, hgb, certAggVerifies, hsig]
        | ViewSyncFinalize s =>
          simp [isValidCert, hg, hleaf, hgb, certAggVerifies, hsig]
      · simp [isValidCert, hg, hleaf, hgb]
  · intro env qc commit s hsig hgb hsum
    have hg : ¬ (qc.genesis_flag = true ∧ qc.view_number = genesisView) := by
      intro h
      rw [certClaimsGenesis, h.1] at hgb
      simp [h.2] at hgb
    by_cases hleaf : qc.leaf_commitment = commit
    · simp [isValidCert, hg, hleaf, hsig, bvCheck]
      intro h
      omega
    · simp [isValidCert, hg, hleaf]

/-- A certificate at view 1 carrying a DA aggregate signed only by the
single committee member of weight one. -/
def qcLowStake : Cert := ⟨1, false, Com.raw 0, .DA ⟨[true], 0⟩⟩

/-- A concrete exchange environment with one member of stake one and a
success threshold of two, whose abstract aggregate verifier accepts
everything. -/
def envLowStake : ExchEnv where
  committee_qc_stake_table := [⟨0, 1⟩]
  success_threshold := 2
  failure_threshold := 1
  verify_agg := fun _ _ _ => true
  get_leader := fun _ => 0
  from_bytes := fun k => some k
  validate_key := fun _ _ _ => true
  validate_vote_token := fun _ _ => .valid
  acc_append := fun a _ _ => .inl a

/-- Witness for claim C2 (amended) at concrete inputs: a matching DA
certificate whose selected stake (1) is below the success threshold (2)
is rejected even though the abstract aggregate verifier accepts. -/
theorem is_valid_cert_characterization_witness :
    isValidCert envLowStake qcLowStake (Com.raw 0) ≠ some true :=
  is_valid_cert_characterization.2 envLowStake qcLowStake (Com.raw 0)
    ⟨[true], 0⟩ rfl (by decide) (by decide)

/-- Claim C9: the commitments of the seven `VoteData` variants over the
same inner commitment are pairwise distinct (each variant commits under
its own domain label), so in particular the message signed for a yes-vote
over a commitment is never the message signed for a DA-vote over the same
commitment. -/
theorem vote_data_commit_domain_separation :
    ∀ c : Com,
      (VoteData.Yes c).commit ≠ (VoteData.DA c).commit ∧
      List.Pairwise (fun a b => a ≠ b)
        [(VoteData.DA c).commit, (VoteData.Yes c).commit,
         (VoteData.No c).commit, (VoteData.Timeout c).commit,
         (VoteData.ViewSyncPreCommit c).commit,
         (VoteData.ViewSyncCommit c).commit,
         (VoteData.ViewSyncFinalize c).commit] := by
  intro c
  refine ⟨?_, ?_⟩ <;> simp [VoteData.commit]

/-- The payload of one view-sync certificate variant: the relay index and
the assembled signatures (the further fields of the source's
`ViewSyncCertificateInternal` play no role in
`is_valid_view_sync_cert`). -/
structure ViewSyncCertInternal where
  relay : Nat
  signatures : AssembledSignature
deriving DecidableEq, Repr

/-- The `ViewSyncCertificate` enum. -/
inductive ViewSyncCertificate where
  | PreCommit (c : ViewSyncCertInternal)
  | Commit (c : ViewSyncCertInternal)
  | Finalize (c : ViewSyncCertInternal)
deriving DecidableEq, Repr

/-- `ViewSyncExchange::is_valid_view_sync_cert`.  The first match selects
the certificate payload, a threshold (the failure threshold for
`PreCommit`, the success threshold otherwise) and the reconstructed
`ViewSyncData` commitment; the second match checks the assembled
signatures, always building the QC parameters with `success_threshold`
and returning `true` for every non-view-sync signature variant.  The
relay key bytes (`to_bytes` of the looked-up leader) are modelled by the
leader key itself. -/
def isValidViewSyncCert (env : ExchEnv) (certificate : ViewSyncCertificate)
    (round : Nat) : Bool :=
  let selected :=
    match certificate with
    | .PreCommit ci =>
        (ci, env.failure_threshold,
          Com.viewSyncData (env.get_leader (round + ci.relay)) round)
    | .Commit ci =>
        (ci, env.success_threshold,
          Com.viewSyncData (env.get_leader (round + ci.relay)) round)
    | .Finalize ci =>
        (ci, env.success_threshold,
          Com.viewSyncData (env.get_leader (round + ci.relay)) round)
  match selected.1.signatures with
  | .ViewSyncPreCommit s =>
      bvCheck env env.committee_qc_stake_table env.success_threshold
        ((VoteData.ViewSyncPreCommit selected.2.2).commit) s
  | .ViewSyncCommit s =>
      bvCheck env env.committee_qc_stake_table env.success_threshold
        ((VoteData.ViewSyncCommit selected.2.2).commit) s
  | .ViewSyncFinalize s =>
      bvCheck env env.committee_qc_stake_table env.success_threshold
        ((VoteData.ViewSyncFinalize selected.2.2).commit) s
  | _ => true

/-- The payload of a view-sync certificate, independent of its variant. -/
def certInternalOf : ViewSyncCertificate → ViewSyncCertInternal
  | .PreCommit c => c
  | .Commit c => c
  | .Finalize c => c

/-- Whether an assembled signature is one of the three view-sync
variants. -/
def isViewSyncSignature : AssembledSignature → Bool
  | .ViewSyncPreCommit _ => true
  | .ViewSyncCommit _ => true
  | .ViewSyncFinalize _ => true
  | _ => false

/-- Claim C10: `is_valid_view_sync_cert` returns `true` with no
verification whatsoever whenever the assembled signatures are not a
view-sync variant; its result never depends on `failure_threshold` (so
the failure threshold selected for the `PreCommit` branch is never used);
and each of the three view-sync branches with matching signatures checks
the aggregate at `success_threshold`. -/
theorem view_sync_cert_check_gaps :
    (∀ (env : ExchEnv) (certificate : ViewSyncCertificate) (round : Nat),
      isViewSyncSignature (certInternalOf certificate).signatures = false →
      isValidViewSyncCert env certificate round = true) ∧
    (∀ (env : ExchEnv) (certificate : ViewSyncCertificate) (round t : Nat),
      isValidViewSyncCert { env with failure_threshold := t } certificate
          round =
        isValidViewSyncCert env certificate round) ∧
    (∀ (env : ExchEnv) (ci : ViewSyncCertInternal) (round : Nat)
        (s : BitVecSig),
      ci.signatures = .ViewSyncPreCommit s →
      isValidViewSyncCert env (.PreCommit ci) round =
        bvCheck env env.committee_qc_stake_table env.success_threshold
          ((VoteData.ViewSyncPreCommit
            (Com.viewSyncData (env.get_leader (round + ci.relay))
              round)).commit) s) ∧
    (∀ (env : ExchEnv) (ci : ViewSyncCertInternal) (round : Nat)
        (s : BitVecSig),
      ci.signatures = .ViewSyncCommit s →
      isValidViewSyncCert env (.Commit ci) round =
        bvCheck env env.committee_qc_stake_table env.success_threshold
          ((VoteData.ViewSyncCommit
            (Com.viewSyncData (env.get_leader (round + ci.relay))
              round)).commit) s) ∧
    (∀ (env : ExchEnv) (ci : ViewSyncCertInternal) (round : Nat)
        (s : BitVecSig),
      ci.signatures = .ViewSyncFinalize s →
      isValidViewSyncCert env (.Finalize ci) round =
        bvCheck env env.committee_qc_stake_table env.success_threshold
          ((VoteData.ViewSyncFinalize
            (Com.viewSyncData (env.get_leader (round + ci.relay))
              round)).commit) s) := by
  refine ⟨?_, ?_, ?_, ?_, ?_⟩
  · intro env certificate round hns
    cases certificate with
    | PreCommit ci =>
      cases hsig : ci.signatures <;>
        simp_all [isValidViewSyncCert, certInternalOf, isViewSyncSignature,
          hsig]
    | Commit ci =>
      cases hsig : ci.signatures <;>
        simp_all [isValidViewSyncCert, certInternalOf, isViewSyncSignature,
          hsig]
    | Finalize ci =>
      cases hsig : ci.signatures <;>
        simp_all [isValidViewSyncCert, certInternalOf, isViewSyncSignature,
          hsig]
  · intro env certificate round t
    cases certificate with
    | PreCommit ci =>
      cases hsig : ci.signatures <;> simp [isValidViewSyncCert, hsig, bvCheck]
    | Commit ci =>
      cases hsig : ci.signatures <;> simp [isValidViewSyncCert, hsig, bvCheck]
    | Finalize ci =>
      cases hsig : ci.signatures <;> simp [isValidViewSyncCert, hsig, bvCheck]
  · intro env ci round s hsig
    simp [isValidViewSyncCert, hsig]
  · intro env ci round s hsig
    simp [isValidViewSyncCert, hsig]
  · intro env ci round s hsig
    simp [isValidViewSyncCert, hsig]

/-- Witness for claim C10 at concrete inputs: a precommit view-sync
certificate wrapping a DA aggregate signature is accepted unconditionally
by `is_valid_view_sync_cert`, even in the environment that rejects every
aggregate. -/
theorem view_sync_cert_check_gaps_witness :
    isValidViewSyncCert envRejectAll
      (.PreCommit ⟨0, .DA ⟨[], 0⟩⟩) 0 = true :=
  view_sync_cert_check_gaps.1 envRejectAll (.PreCommit ⟨0, .DA ⟨[], 0⟩⟩) 0
    (by decide)

/-- `ConsensusExchange::is_valid_vote`: decode the signer's key, validate
the signature over the commitment of the vote data, and require the vote
token to check out as valid. -/
def isValidVote (env : ExchEnv) (encoded_key encoded_signature : Nat)
    (data : VoteData) (vote_token : Nat) : Bool :=
  match env.from_bytes encoded_key with
  | none => false
  | some key =>
    env.validate_key key encoded_signature data.commit &&
      (match env.validate_vote_token key vote_token with
       | .valid => true
       | _ => false)

/-- The `position` scan over the committee stake table used by
`accumulate_internal` to find the signer's index. -/
def positionOf (table : List StakeEntry) (entry : StakeEntry) : Option Nat :=
  table.findIdx? (fun x => decide (x = entry))

/-- The argument tuple of
`SignedCertificate::from_signatures_and_commitment` as
`accumulate_internal` builds it when the accumulator crosses the
threshold. -/
structure BuiltCert where
  view_number : Nat
  signatures : AssembledSignature
  commitment : Com
  relay : Option Nat
deriving DecidableEq, Repr

/-- `ConsensusExchange::accumulate_internal`: an invalid vote leaves the
accumulator unchanged; otherwise the signer's stake-table index is
obtained by `position(..).unwrap()` — the `none` result models the panic
this raises when the entry is absent — and the vote is appended to the
accumulator (abstract, returning either the new accumulator or the
assembled signatures of a finished certificate). -/
def accumulateInternal (env : ExchEnv) (vota_meta : VoteMetaData)
    (accumulator : Nat) : Option (Sum Nat BuiltCert) :=
  if isValidVote env vota_meta.encoded_key vota_meta.encoded_signature
      vota_meta.data vota_meta.vote_token = false then
    some (Sum.inl accumulator)
  else
    match positionOf env.committee_qc_stake_table vota_meta.entry with
    | none => none
    | some append_node_id =>
      match env.acc_append accumulator vota_meta append_node_id with
      | .inl acc => some (Sum.inl acc)
      | .inr signatures =>
        some (Sum.inr ⟨vota_meta.view_number, signatures,
          vota_meta.commitment, vota_meta.relay⟩)

/-- A vote whose stake entry (key 9) is not a member of the committee
stake table of `envAcceptAll`, while its signature and token validate. -/
def voteMetaUnknown : VoteMetaData :=
  ⟨5, 7, ⟨9, 1⟩, 9, Com.raw 0, VoteData.DA (Com.raw 0), 3, 2, none⟩

/-- A concrete exchange environment with a one-member stake table that
accepts every signature and vote token. -/
def envAcceptAll : ExchEnv where
  committee_qc_stake_table := [⟨0, 1⟩]
  success_threshold := 1
  failure_threshold := 1
  verify_agg := fun _ _ _ => true
  get_leader := fun _ => 0
  from_bytes := fun k => some k
  validate_key := fun _ _ _ => true
  validate_vote_token := fun _ _ => .valid
  acc_append := fun a _ _ => .inl a

/-- Claim C5 fails on the code: a vote whose signature and token validate
but whose stake entry is not in the committee stake table drives
`accumulate_internal` into `position(..).unwrap()` on `None`, i.e. a
panic (modelled as `none`), instead of the non-fatal `UnknownSigner`
rejection the claim and the spec require. -/
theorem accumulate_internal_unknown_signer_panics :
    accumulateInternal envAcceptAll voteMetaUnknown 0 = none ∧
    positionOf envAcceptAll.committee_qc_stake_table voteMetaUnknown.entry =
      none ∧
    isValidVote envAcceptAll voteMetaUnknown.encoded_key
      voteMetaUnknown.encoded_signature voteMetaUnknown.data
      voteMetaUnknown.vote_token = true := by
  decide

end Election
